import Mathlib

/-!
# Verification of the mcp-multi-client orchestration core

A shallow embedding of `src/mcp-multi-client/src/index.ts` (class
`MCPMultiClient` and `main`) together with the observable behaviour of the
repository's tool servers that is relevant to the client
(`src/unnamed/part_001` etc. mark remote errors with the `isError` field of
the MCP call result).

Conventions of the embedding:
* JavaScript `Map<string, V>` is an insertion-ordered association list
  `List (String × V)`; `Map.set` overwrites the value in place when the key
  is present and appends otherwise, `Map.get` returns an `Option`,
  `Map.delete` removes the key.  A `Map` used only for its key set
  (`mcpClients`, `transports` — the `Client` objects themselves are opaque
  handles) is modelled by its ordered key list.
* Concurrency of `connectToServers` is modelled by a settlement schedule: the
  synchronous part of the for-loop registers every configured server in the
  two maps in configuration order, and then the per-server continuations
  (the code after `await client.connect` / `await client.listTools`) run
  atomically in an arbitrary order, given by a list of
  `(serverName, ConnOutcome)` events.  Each attempt settles exactly once.
* Exceptions are explicit: fallible external calls are oracles returning an
  outcome (`threw` / result), and the embedding of each `try`/`catch` block
  matches on that outcome.
-/

/-! ## JavaScript `Map` as an insertion-ordered association list -/

/-- `Map.get k`: value at the first (unique) entry with key `k`;
`Map.has k` is `(mapGet m k).isSome`. -/
def mapGet {α : Type} (m : List (String × α)) (k : String) : Option α :=
  match m with
  | [] => none
  | p :: rest => if p.1 = k then some p.2 else mapGet rest k

/-- `Map.set k v`: overwrite in place when present, append otherwise. -/
def mapSet {α : Type} (m : List (String × α)) (k : String) (v : α) : List (String × α) :=
  match m with
  | [] => [(k, v)]
  | p :: rest => if p.1 = k then (k, v) :: rest else p :: mapSet rest k v

/-- `Map.delete k` (on a map used for its key set only). -/
def keyDelete (ks : List String) (k : String) : List String :=
  ks.filter (fun a => a ≠ k)

/-- `Map.set` on a map used for its key set only. -/
def keySet (ks : List String) (k : String) : List String :=
  if k ∈ ks then ks else ks ++ [k]

/-! ## Data model of the client -/

/-- The `inputSchema` field of an MCP `ToolInfo` as a JavaScript value:
absent (or `null`, which is equally falsy), a truthy value of type
`object` (used directly as the Anthropic schema), or a truthy non-object
(rejected with a logged warning, replaced by the empty schema). -/
inductive SchemaField where
  | missing : SchemaField
  | objectVal (payload : String) : SchemaField
  | otherTruthy (payload : String) : SchemaField
deriving DecidableEq, Repr

/-- MCP `ToolInfo` as listed by a server (`name`, optional `description`,
optional `inputSchema`). -/
structure ToolInfo where
  name : String
  description : Option String
  inputSchema : SchemaField
deriving DecidableEq, Repr

/-- The `input_schema` of the Anthropic-format `Tool` built by the client:
either the default empty object schema or the server's object schema. -/
inductive ToolSchema where
  | emptyObject : ToolSchema
  | fromServer (payload : String) : ToolSchema
deriving DecidableEq, Repr

/-- Anthropic-format `Tool` (an entry of `allTools`). -/
structure Tool where
  name : String
  description : String
  input_schema : ToolSchema
deriving DecidableEq, Repr

/-- `index.ts` lines 143-148: build the Anthropic `Tool` from an MCP
`ToolInfo`.  `mcpTool.description || default` is falsy on the empty string;
the schema is used directly only when truthy and of type `object`. -/
def convertTool (serverName : String) (t : ToolInfo) : Tool :=
  { name := t.name
  , description :=
      match t.description with
      | some d => if d = "" then "Tool " ++ t.name ++ " from server " ++ serverName else d
      | none => "Tool " ++ t.name ++ " from server " ++ serverName
  , input_schema :=
      match t.inputSchema with
      | SchemaField.objectVal payload => ToolSchema.fromServer payload
      | _ => ToolSchema.emptyObject }

/-- The duplicate-tool-name warning of `index.ts` lines 123-127. -/
structure CollisionWarning where
  toolName : String
  prevOwner : String
  newOwner : String
deriving DecidableEq, Repr

/-- Mutable state of `MCPMultiClient` (the `Client` / `StdioClientTransport`
objects are opaque, so the two maps are kept as ordered key lists). -/
structure ClientState where
  mcpClients : List String
  transports : List String
  allTools : List Tool
  toolToServerMap : List (String × String)
deriving DecidableEq, Repr

/-- Field initialisers of `MCPMultiClient`. -/
def emptyState : ClientState :=
  { mcpClients := [], transports := [], allTools := [], toolToServerMap := [] }

/-- One configured server: `{ command, args }` after zod validation. -/
structure ServerConfig where
  command : String
  args : List String
deriving DecidableEq, Repr

/-- Outcome of one connection attempt: `fail` covers a `client.connect` or
`client.listTools` rejection (both happen before any registration for that
server), `ok tools` a successful connect plus catalog fetch. -/
inductive ConnOutcome where
  | fail : ConnOutcome
  | ok (tools : List ToolInfo) : ConnOutcome
deriving DecidableEq, Repr

/-- `index.ts` lines 122-128: per fetched tool, warn when
`toolToServerMap` already has the name (recording the previous owner),
then `toolToServerMap.set(name, serverName)`.  The Anthropic descriptors
built in the same `.map` callback are produced by `convertTool` separately;
the two computations do not interact. -/
def registerTools (m : List (String × String)) (ws : List CollisionWarning)
    (serverName : String) : List ToolInfo → List (String × String) × List CollisionWarning
  | [] => (m, ws)
  | t :: ts =>
      let ws2 :=
        match mapGet m t.name with
        | some prev => ws ++ [{ toolName := t.name, prevOwner := prev, newOwner := serverName }]
        | none => ws
      registerTools (mapSet m t.name serverName) ws2 serverName ts

/-- Effect of one attempt settling (`index.ts` lines 115-160): on success,
register the catalog in `toolToServerMap` and push the converted descriptors
onto `allTools`; on failure, delete the server from both maps. -/
def settleEvent (st : ClientState) (ws : List CollisionWarning) :
    String × ConnOutcome → ClientState × List CollisionWarning
  | (serverName, ConnOutcome.fail) =>
      ({ st with mcpClients := keyDelete st.mcpClients serverName
               , transports := keyDelete st.transports serverName }, ws)
  | (serverName, ConnOutcome.ok tools) =>
      let r := registerTools st.toolToServerMap ws serverName tools
      ({ st with toolToServerMap := r.1
               , allTools := st.allTools ++ tools.map (convertTool serverName) }, r.2)

/-- Run the settlement events in order. -/
def settleAll (st : ClientState) (ws : List CollisionWarning) :
    List (String × ConnOutcome) → ClientState × List CollisionWarning
  | [] => (st, ws)
  | e :: rest =>
      settleAll (settleEvent st ws e).1 (settleEvent st ws e).2 rest

/-- Synchronous part of the for-loop of `connectToServers` (lines 98-111):
every configured server is put into `transports` and `mcpClients`, in
configuration order, before any attempt settles. -/
def setupClients (servers : List (String × ServerConfig)) (st : ClientState) : ClientState :=
  match servers with
  | [] => st
  | (serverName, _) :: rest =>
      setupClients rest
        { st with transports := keySet st.transports serverName
                , mcpClients := keySet st.mcpClients serverName }

/-- Result of `connectToServers`: final state, collision warnings, and
whether `process.exit(1)` was reached (`mcpClients.size === 0` after the
`Promise.all` barrier, line 166). -/
structure ConnectResult where
  state : ClientState
  warnings : List CollisionWarning
  exited : Bool
deriving DecidableEq, Repr

/-- `connectToServers`, from the freshly constructed client, under a
settlement schedule `settle` (each configured server settles exactly once;
faithful runs have `settle.map (·.1)` a permutation of `servers.map (·.1)`). -/
def connectToServers (servers : List (String × ServerConfig))
    (settle : List (String × ConnOutcome)) : ConnectResult :=
  let r := settleAll (setupClients servers emptyState) [] settle
  { state := r.1, warnings := r.2, exited := r.1.mcpClients.isEmpty }

/-! ## Data model of `processQuery` -/

/-- `toolCall.input`: an untyped argument record, modelled as key/value
pairs with string payloads; the field is optional (`input?`). -/
abbrev ToolArgs := List (String × String)

/-- A block of a model-backend response: plain text or a `tool_use` request
`{ id, name, input?, type: 'tool_use' }`. -/
inductive ContentBlock where
  | text (text : String) : ContentBlock
  | toolUse (id : String) (name : String) (input : Option ToolArgs) : ContentBlock
deriving DecidableEq, Repr

/-- Response of `anthropic.messages.create` (the `stop_reason` is only used
for a logged warning, never for control flow). -/
structure ModelResponse where
  content : List ContentBlock
  stop_reason : Option String
deriving DecidableEq, Repr

/-- Outcome of one `anthropic.messages.create` call: fulfilled, or rejected
with an error whose `message` is `msg`. -/
inductive BackendOutcome where
  | threw (msg : String) : BackendOutcome
  | ok (resp : ModelResponse) : BackendOutcome
deriving DecidableEq, Repr

/-- One item of the `content` array of an MCP call-tool result. -/
structure MCPContentItem where
  type : String
  text : Option String
deriving DecidableEq, Repr

/-- The `content` field of an MCP call-tool result as a JavaScript value:
absent/falsy, truthy but not an array, or an array. -/
inductive ContentField where
  | missing : ContentField
  | nonArray (payload : String) : ContentField
  | arr (items : List MCPContentItem) : ContentField
deriving DecidableEq, Repr

/-- Runtime shape of the value returned by `client.callTool`.  The MCP SDK
(and every tool server of this repository, e.g. the `LIST_PROCESSES`
handler) marks a remote-reported error with the `isError` field; the
client's local `MCPToolCallResult` interface instead declares (and
`processQuery` reads) a field named `error`, which the SDK never sets. -/
structure MCPToolCallResult where
  content : ContentField
  error : Option Bool
  isErrorField : Option Bool
deriving DecidableEq, Repr

/-- Outcome of one `client.callTool` call. -/
inductive CallOutcome where
  | threw (msg : String) : CallOutcome
  | completed (result : MCPToolCallResult) : CallOutcome
deriving DecidableEq, Repr

/-- Behaviour of the connected tool servers:
`(serverName, toolName, arguments) ↦ outcome of client.callTool`. -/
abbrev CallBehavior := String → String → ToolArgs → CallOutcome

/-- A `tool_result` part pushed onto `toolResults` (the `content` is a
string in all three pushes of `processQuery`). -/
structure ToolResultPart where
  tool_use_id : String
  content : String
  is_error : Bool
deriving DecidableEq, Repr

/-- Content of a conversation message: the initial user string, the
assistant's content blocks, or the list of tool results. -/
inductive MessageContent where
  | ofString (s : String) : MessageContent
  | ofBlocks (bs : List ContentBlock) : MessageContent
  | ofResults (rs : List ToolResultPart) : MessageContent
deriving DecidableEq, Repr

/-- One `MessageParam` of the conversation sequence. -/
structure MessageParam where
  role : String
  content : MessageContent
deriving DecidableEq, Repr

/-- Observable event of a `processQuery` run: a backend call (with the model
identifier, the message sequence sent, and the offered tools, `none` when
the `tools` parameter is omitted), or one Dispatcher invocation (resolution
plus remote call) for a requested `tool_use`. -/
inductive QEvent where
  | backendCall (model : String) (messages : List MessageParam)
      (tools : Option (List Tool)) : QEvent
  | dispatch (name : String) (id : String) : QEvent
deriving DecidableEq, Repr

/-- The extracted `tool_use` blocks of a response, in content order
(lines 201-207). -/
def respToolUses (content : List ContentBlock) : List (String × String × Option ToolArgs) :=
  content.filterMap (fun b =>
    match b with
    | ContentBlock.text _ => none
    | ContentBlock.toolUse id name input => some (id, name, input))

/-- The extracted text blocks of a response, in content order. -/
def respTexts (content : List ContentBlock) : List String :=
  content.filterMap (fun b =>
    match b with
    | ContentBlock.text t => some t
    | ContentBlock.toolUse _ _ _ => none)

/-- Abstraction of `JSON.stringify` on one content item (quote escaping
inside payloads is not modelled; no claim depends on the exact characters). -/
def stringifyItem (c : MCPContentItem) : String :=
  "\x7b\"type\":\"" ++ c.type ++ "\"" ++
    (match c.text with
     | some t => ",\"text\":\"" ++ t ++ "\""
     | none => "") ++ "\x7d"

/-- Abstraction of `JSON.stringify(result.content)` for an array value. -/
def stringifyItems (items : List MCPContentItem) : String :=
  "[" ++ String.intercalate "," (items.map stringifyItem) ++ "]"

/-- Lines 243-244: `serverName = toolToServerMap.get(name)` and
`client = serverName ? mcpClients.get(serverName) : undefined` — the empty
server name is falsy, and a deleted client yields `undefined`. -/
def clientLookup (st : ClientState) (toolName : String) : Option String :=
  match mapGet st.toolToServerMap toolName with
  | none => none
  | some serverName =>
      if serverName = "" then none
      else if serverName ∈ st.mcpClients then some serverName
      else none

/-- Lines 269-284: normalise the completed MCP result into the textual
`resultOutput`: first text-bearing item of a non-empty content array, else
the serialised array, else (on a truthy `result.error`) a generic error
message, else the default message. -/
def normalizeResult (toolName : String) (result : MCPToolCallResult) : String :=
  match result.content with
  | ContentField.arr items =>
      if items.length > 0 then
        match items.find? (fun c => c.type = "text") with
        | some textBlock =>
            match textBlock.text with
            | some s => s
            | none => stringifyItems items
        | none => stringifyItems items
      else if result.error = some true then "Tool " ++ toolName ++ " reported an error."
      else "Tool " ++ toolName ++ " executed."
  | _ =>
      if result.error = some true then "Tool " ++ toolName ++ " reported an error."
      else "Tool " ++ toolName ++ " executed."

/-- Lines 235-301, body of the per-`toolCall` loop (the Dispatcher of the
spec): resolve the owning client; unresolved names yield an error-flagged
result; a rejected remote call is caught and converted; a completed call is
normalised, with `is_error := (result.error === true)`. -/
def dispatchToolCall (st : ClientState) (callBehavior : CallBehavior)
    (tc : String × String × Option ToolArgs) : ToolResultPart :=
  let toolUseId := tc.1
  let toolName := tc.2.1
  let toolInput := tc.2.2.getD []
  match clientLookup st toolName with
  | none =>
      { tool_use_id := toolUseId
      , content := "Error: Tool \"" ++ toolName ++ "\" is not available or its server is disconnected."
      , is_error := true }
  | some serverName =>
      match callBehavior serverName toolName toolInput with
      | CallOutcome.threw msg =>
          { tool_use_id := toolUseId
          , content := "Error executing tool " ++ toolName ++ ": " ++ msg
          , is_error := true }
      | CallOutcome.completed result =>
          { tool_use_id := toolUseId
          , content := normalizeResult toolName result
          , is_error := result.error = some true }

/-- Model named by the phase-1 `messages.create` call (line 188). -/
def initialModel : String := "claude-3-5-sonnet-20240620"

/-- Model named by the phase-4 `messages.create` call (line 311). -/
def finalModel : String := "claude-3-opus-20240229"

/-- Line 224 fallback answer. -/
def noTextPlaceholder : String := "Claude did not provide a text response."

/-- Line 191: `tools: allTools.length > 0 ? allTools : undefined`. -/
def toolsOffered (st : ClientState) : Option (List Tool) :=
  if st.allTools.length > 0 then some st.allTools else none

/-- `processQuery` (lines 177-333): returns the answer string and the trace
of backend calls and Dispatcher invocations.  The surrounding `try`/`catch`
converts a rejected backend call into the `"An error occurred: …"` answer. -/
def processQuery (st : ClientState) (query : String)
    (initialOutcome : BackendOutcome) (finalOutcome : BackendOutcome)
    (callBehavior : CallBehavior) : String × List QEvent :=
  let messages : List MessageParam := [{ role := "user", content := MessageContent.ofString query }]
  let ev1 := QEvent.backendCall initialModel messages (toolsOffered st)
  match initialOutcome with
  | BackendOutcome.threw msg => ("An error occurred: " ++ msg, [ev1])
  | BackendOutcome.ok initialResponse =>
      let toolCalls := respToolUses initialResponse.content
      let textContents := respTexts initialResponse.content
      let finalAnswer :=
        if textContents.length > 0 then String.intercalate "\n" textContents ++ "\n" else ""
      if toolCalls.isEmpty then
        (if finalAnswer.trim = "" then noTextPlaceholder else finalAnswer.trim, [ev1])
      else
        let messages2 := messages ++
          [{ role := "assistant", content := MessageContent.ofBlocks initialResponse.content }]
        let toolResults := toolCalls.map (dispatchToolCall st callBehavior)
        let dispatchEvents := toolCalls.map (fun tc => QEvent.dispatch tc.2.1 tc.1)
        let messages3 := messages2 ++
          [{ role := "user", content := MessageContent.ofResults toolResults }]
        let ev2 := QEvent.backendCall finalModel messages3 none
        match finalOutcome with
        | BackendOutcome.threw msg =>
            ("An error occurred: " ++ msg, [ev1] ++ dispatchEvents ++ [ev2])
        | BackendOutcome.ok finalResponse =>
            let finalContent := String.intercalate "\n" (respTexts finalResponse.content)
            ((finalAnswer ++ finalContent).trim, [ev1] ++ dispatchEvents ++ [ev2])

/-! ## Startup (`loadConfig`, constructor, `main`) -/

/-- State of the configuration file as observed by `main` and `loadConfig`:
missing (`fs.existsSync` false), unreadable (`readFileSync` throws), not
JSON (`JSON.parse` throws), schema-invalid (`ConfigSchema.parse` throws), or
valid with its `mcpServers` entries in key order. -/
inductive ConfigFile where
  | missing : ConfigFile
  | unreadable : ConfigFile
  | invalidJson : ConfigFile
  | invalidSchema : ConfigFile
  | valid (servers : List (String × ServerConfig)) : ConfigFile
deriving DecidableEq, Repr

/-- Observable outcome of `main`: the process exit code and whether the
interactive chat loop (which accepts queries) was entered. -/
structure MainOutcome where
  exitCode : Nat
  enteredChatLoop : Bool
deriving DecidableEq, Repr

/-- `main` (lines 381-408) under a configuration-file state, presence of
`ANTHROPIC_API_KEY`, and a settlement schedule for `connectToServers`:
* missing config file → `process.exit(1)` (line 390);
* missing credential → the `MCPMultiClient` constructor throws *outside*
  the `try` (line 393), `main`'s promise rejects unhandled, and Node
  terminates with its default non-zero exit code for unhandled rejections
  (modelled as 1);
* `loadConfig` failure (unreadable / bad JSON / bad schema) → caught at
  line 399, then the `finally` block runs `process.exit(0)`;
* zero servers connected → `process.exit(1)` inside `connectToServers`;
* otherwise the chat loop runs and a normal quit reaches `process.exit(0)`. -/
def runMain (cfg : ConfigFile) (apiKeyPresent : Bool)
    (settle : List (String × ConnOutcome)) : MainOutcome :=
  match cfg with
  | ConfigFile.missing => { exitCode := 1, enteredChatLoop := false }
  | _ =>
      if apiKeyPresent then
        match cfg with
        | ConfigFile.valid servers =>
            let r := connectToServers servers settle
            if r.exited then { exitCode := 1, enteredChatLoop := false }
            else { exitCode := 0, enteredChatLoop := true }
        | _ => { exitCode := 0, enteredChatLoop := false }
      else { exitCode := 1, enteredChatLoop := false }

/-! ## Derived observations of the settlement schedule -/

/-- Names of servers whose attempt failed. -/
def failNames (settle : List (String × ConnOutcome)) : List String :=
  settle.filterMap (fun e =>
    match e.2 with
    | ConnOutcome.fail => some e.1
    | ConnOutcome.ok _ => none)

/-- Names of servers whose attempt succeeded. -/
def okNames (settle : List (String × ConnOutcome)) : List String :=
  settle.filterMap (fun e =>
    match e.2 with
    | ConnOutcome.ok _ => some e.1
    | ConnOutcome.fail => none)

/-- The Anthropic descriptors contributed by one settlement event. -/
def okTools : String × ConnOutcome → List Tool
  | (s, ConnOutcome.ok ts) => ts.map (convertTool s)
  | (_, ConnOutcome.fail) => []

/-- Number of collision warnings emitted for a given capability name. -/
def warnCount (ws : List CollisionWarning) (n : String) : Nat :=
  (ws.filter (fun w => w.toolName = n)).length

/-! ## Lemmas about the map operations -/

theorem mapGet_mapSet {α : Type} (m : List (String × α)) (k n : String) (v : α) :
    mapGet (mapSet m k v) n = if k = n then some v else mapGet m n := by
  induction m with
  | nil => simp [mapSet, mapGet]
  | cons p rest ih =>
      by_cases hpk : p.1 = k
      · by_cases hkn : k = n
        · simp [mapSet, mapGet, hpk, hkn]
        · have hpn : ¬ p.1 = n := by rw [hpk]; exact hkn
          simp [mapSet, mapGet, hpk, hkn, hpn]
      · by_cases hpn : p.1 = n
        · have hkn : ¬ k = n := fun h => hpk (hpn.trans h.symm)
          have hnk : ¬ n = k := fun h => hkn h.symm
          simp [mapSet, mapGet, hpk, hpn, hkn, hnk]
        · simp [mapSet, mapGet, hpk, hpn, ih]

theorem mem_mapSet {α : Type} (m : List (String × α)) (k : String) (v : α)
    (p : String × α) (hp : p ∈ mapSet m k v) : p = (k, v) ∨ p ∈ m := by
  induction m with
  | nil => simpa [mapSet] using hp
  | cons q rest ih =>
      by_cases h : q.1 = k
      · simp only [mapSet, if_pos h] at hp
        rcases List.mem_cons.mp hp with h1 | h1
        · exact Or.inl h1
        · exact Or.inr (List.mem_cons_of_mem q h1)
      · simp only [mapSet, if_neg h] at hp
        rcases List.mem_cons.mp hp with h1 | h1
        · exact Or.inr (h1 ▸ List.mem_cons_self q rest)
        · rcases ih h1 with h2 | h2
          · exact Or.inl h2
          · exact Or.inr (List.mem_cons_of_mem q h2)

theorem mem_keyDelete (ks : List String) (k a : String) :
    a ∈ keyDelete ks k ↔ a ∈ ks ∧ a ≠ k := by
  simp [keyDelete, List.mem_filter]

theorem mem_keySet (ks : List String) (k a : String) :
    a ∈ keySet ks k ↔ a ∈ ks ∨ a = k := by
  by_cases h : k ∈ ks
  · simp only [keySet, if_pos h]
    constructor
    · exact fun ha => Or.inl ha
    · rintro (ha | rfl)
      · exact ha
      · exact h
  · simp [keySet, h]

theorem warnCount_append (ws1 ws2 : List CollisionWarning) (n : String) :
    warnCount (ws1 ++ ws2) n = warnCount ws1 n + warnCount ws2 n := by
  simp [warnCount, List.filter_append]

/-! ## Lemmas about registration -/

theorem registerTools_get (ts : List ToolInfo) (m : List (String × String))
    (ws : List CollisionWarning) (s n : String) :
    mapGet (registerTools m ws s ts).1 n =
      if n ∈ ts.map ToolInfo.name then some s else mapGet m n := by
  induction ts generalizing m ws with
  | nil => simp [registerTools]
  | cons t rest ih =>
      by_cases hmem : n ∈ rest.map ToolInfo.name
      · simp [registerTools, ih, hmem]
      · by_cases hn : t.name = n
        · simp [registerTools, ih, hmem, hn, mapGet_mapSet]
        · have hnt : ¬ n = t.name := fun h => hn h.symm
          simp [registerTools, ih, hmem, hn, hnt, mapGet_mapSet]

theorem registerTools_owner (ts : List ToolInfo) (m : List (String × String))
    (ws : List CollisionWarning) (s : String) (p : String × String)
    (hp : p ∈ (registerTools m ws s ts).1) : p ∈ m ∨ p.2 = s := by
  induction ts generalizing m ws with
  | nil => exact Or.inl (by simpa [registerTools] using hp)
  | cons t rest ih =>
      simp only [registerTools] at hp
      rcases ih _ _ hp with h | h
      · rcases mem_mapSet _ _ _ _ h with h2 | h2
        · exact Or.inr (by rw [h2])
        · exact Or.inl h2
      · exact Or.inr h

theorem registerTools_warnCount (ts : List ToolInfo) (m : List (String × String))
    (ws : List CollisionWarning) (s n : String)
    (hnd : (ts.map ToolInfo.name).Nodup) :
    warnCount (registerTools m ws s ts).2 n =
      warnCount ws n +
        (if n ∈ ts.map ToolInfo.name ∧ (mapGet m n).isSome then 1 else 0) := by
  induction ts generalizing m ws with
  | nil => simp [registerTools]
  | cons t rest ih =>
      simp only [List.map_cons, List.nodup_cons] at hnd
      obtain ⟨hnotin, hnd2⟩ := hnd
      cases hget : mapGet m t.name with
      | none =>
          have hstep : registerTools m ws s (t :: rest)
              = registerTools (mapSet m t.name s) ws s rest := by
            simp [registerTools, hget]
          rw [hstep, ih _ _ hnd2]
          by_cases hn : t.name = n
          · subst hn
            simp [hnotin, hget]
          · have hnt : ¬ n = t.name := fun h => hn h.symm
            simp [mapGet_mapSet, hnt, hn]
      | some prev =>
          have hstep : registerTools m ws s (t :: rest)
              = registerTools (mapSet m t.name s)
                  (ws ++ [{ toolName := t.name, prevOwner := prev, newOwner := s }]) s rest := by
            simp [registerTools, hget]
          rw [hstep, ih _ _ hnd2, warnCount_append]
          by_cases hn : t.name = n
          · subst hn
            simp [hnotin, hget, warnCount]
          · have hnt : ¬ n = t.name := fun h => hn h.symm
            simp [mapGet_mapSet, hnt, hn, warnCount]

/-! ## Lemmas about connection establishment -/

theorem setupClients_allTools (servers : List (String × ServerConfig)) (st : ClientState) :
    (setupClients servers st).allTools = st.allTools := by
  induction servers generalizing st with
  | nil => simp [setupClients]
  | cons p rest ih => obtain ⟨sn, cfg⟩ := p; simp [setupClients, ih]

theorem setupClients_toolToServerMap (servers : List (String × ServerConfig)) (st : ClientState) :
    (setupClients servers st).toolToServerMap = st.toolToServerMap := by
  induction servers generalizing st with
  | nil => simp [setupClients]
  | cons p rest ih => obtain ⟨sn, cfg⟩ := p; simp [setupClients, ih]

theorem mem_setupClients (servers : List (String × ServerConfig)) (st : ClientState)
    (a : String) :
    a ∈ (setupClients servers st).mcpClients ↔
      a ∈ st.mcpClients ∨ a ∈ servers.map Prod.fst := by
  induction servers generalizing st with
  | nil => simp [setupClients]
  | cons p rest ih =>
      obtain ⟨sn, cfg⟩ := p
      simp only [setupClients, ih, mem_keySet, List.map_cons, List.mem_cons]
      tauto

theorem settleAll_allTools (settle : List (String × ConnOutcome)) (st : ClientState)
    (ws : List CollisionWarning) :
    (settleAll st ws settle).1.allTools = st.allTools ++ settle.flatMap okTools := by
  induction settle generalizing st ws with
  | nil => simp [settleAll]
  | cons e rest ih =>
      obtain ⟨s, o⟩ := e
      cases o with
      | fail => simp [settleAll, settleEvent, ih, okTools]
      | ok ts => simp [settleAll, settleEvent, ih, okTools]

theorem settleAll_clients_mem (settle : List (String × ConnOutcome)) (st : ClientState)
    (ws : List CollisionWarning) (c : String) :
    c ∈ (settleAll st ws settle).1.mcpClients ↔
      c ∈ st.mcpClients ∧ c ∉ failNames settle := by
  induction settle generalizing st ws with
  | nil => simp [settleAll, failNames]
  | cons e rest ih =>
      obtain ⟨s, o⟩ := e
      cases o with
      | fail =>
          simp only [settleAll, settleEvent, ih, mem_keyDelete, failNames,
            List.filterMap_cons, List.mem_cons]
          tauto
      | ok ts =>
          simp only [settleAll, settleEvent, ih, failNames, List.filterMap_cons]

theorem settleAll_owner (settle : List (String × ConnOutcome)) (st : ClientState)
    (ws : List CollisionWarning) (p : String × String)
    (hp : p ∈ (settleAll st ws settle).1.toolToServerMap) :
    p ∈ st.toolToServerMap ∨ p.2 ∈ okNames settle := by
  induction settle generalizing st ws with
  | nil => exact Or.inl (by simpa [settleAll] using hp)
  | cons e rest ih =>
      obtain ⟨s, o⟩ := e
      cases o with
      | fail =>
          rcases ih _ _ hp with h | h
          · exact Or.inl h
          · exact Or.inr (by simpa [okNames, List.filterMap_cons] using h)
      | ok ts =>
          rcases ih _ _ hp with h | h
          · rcases registerTools_owner ts st.toolToServerMap ws s p h with h2 | h2
            · exact Or.inl h2
            · refine Or.inr ?_
              simp only [okNames, List.filterMap_cons]
              exact h2 ▸ List.mem_cons_self s _
          · refine Or.inr ?_
            simp only [okNames, List.filterMap_cons]
            exact List.mem_cons_of_mem s h

theorem mem_okNames (settle : List (String × ConnOutcome)) (s : String) :
    s ∈ okNames settle ↔ ∃ ts, (s, ConnOutcome.ok ts) ∈ settle := by
  constructor
  · intro h
    obtain ⟨e, hmem, hf⟩ := List.mem_filterMap.mp h
    obtain ⟨a, o⟩ := e
    cases o with
    | fail => simp at hf
    | ok ts =>
        simp only [Option.some_inj] at hf
        exact ⟨ts, by rwa [hf] at hmem⟩
  · rintro ⟨ts, hmem⟩
    exact List.mem_filterMap.mpr ⟨(s, ConnOutcome.ok ts), hmem, rfl⟩

theorem mem_failNames (settle : List (String × ConnOutcome)) (s : String) :
    s ∈ failNames settle ↔ (s, ConnOutcome.fail) ∈ settle := by
  constructor
  · intro h
    obtain ⟨e, hmem, hf⟩ := List.mem_filterMap.mp h
    obtain ⟨a, o⟩ := e
    cases o with
    | fail =>
        simp only [Option.some_inj] at hf
        rwa [hf] at hmem
    | ok ts => simp at hf
  · intro hmem
    exact List.mem_filterMap.mpr ⟨(s, ConnOutcome.fail), hmem, rfl⟩

theorem okNames_subset (settle : List (String × ConnOutcome)) (s : String)
    (h : s ∈ okNames settle) : s ∈ settle.map Prod.fst := by
  obtain ⟨ts, hmem⟩ := (mem_okNames settle s).mp h
  exact List.mem_map.mpr ⟨(s, ConnOutcome.ok ts), hmem, rfl⟩

theorem okNames_fail_absurd (settle : List (String × ConnOutcome))
    (hnd : (settle.map Prod.fst).Nodup) (s : String)
    (ho : s ∈ okNames settle) (hf : s ∈ failNames settle) : False := by
  obtain ⟨ts, hmo⟩ := (mem_okNames settle s).mp ho
  have hmf := (mem_failNames settle s).mp hf
  have heq := List.inj_on_of_nodup_map hnd hmo hmf rfl
  simp at heq

/-! ## Lemmas about the query round -/

theorem dispatchToolCall_id (st : ClientState) (cb : CallBehavior)
    (tc : String × String × Option ToolArgs) :
    (dispatchToolCall st cb tc).tool_use_id = tc.1 := by
  rcases h : clientLookup st tc.2.1 with _ | s
  · simp [dispatchToolCall, h]
  · rcases h2 : cb s tc.2.1 (tc.2.2.getD []) with msg | result
    · simp [dispatchToolCall, h, h2]
    · simp [dispatchToolCall, h, h2]

/-- Shape of the event trace of a query whose phase-1 response contains at
least one `tool_use` request: one phase-1 backend call, one Dispatcher
invocation per requested call in request order, then exactly one phase-4
backend call carrying the tool results, with no tools offered, regardless
of whether the phase-4 call itself is fulfilled or rejected. -/
theorem processQuery_toolRound (st : ClientState) (query : String) (resp : ModelResponse)
    (finalOutcome : BackendOutcome) (cb : CallBehavior)
    (htc : respToolUses resp.content ≠ []) :
    (processQuery st query (BackendOutcome.ok resp) finalOutcome cb).2 =
      QEvent.backendCall initialModel
          [{ role := "user", content := MessageContent.ofString query }] (toolsOffered st)
        :: (respToolUses resp.content).map (fun tc => QEvent.dispatch tc.2.1 tc.1)
        ++ [QEvent.backendCall finalModel
             [{ role := "user", content := MessageContent.ofString query },
              { role := "assistant", content := MessageContent.ofBlocks resp.content },
              { role := "user", content := MessageContent.ofResults
                  ((respToolUses resp.content).map (dispatchToolCall st cb)) }] none] := by
  have hne : (respToolUses resp.content).isEmpty = false := by
    cases h : respToolUses resp.content with
    | nil => exact absurd h htc
    | cons a l => rfl
  cases finalOutcome <;> simp [processQuery, hne]

/-- The model identifier of a backend-call event. -/
def eventModel : QEvent → Option String
  | QEvent.backendCall model _ _ => some model
  | QEvent.dispatch _ _ => none

/-! ## Claims -/

/-- C1, counterexample: the claim states that the capability snapshot
(`allTools`) offered to the model backend never contains a name twice.  With
two servers "alpha" and "beta" both advertising a tool named "T", both
settling successfully, the snapshot lists "T" twice: `allTools.push(...)` in
`connectToServers` never removes duplicates (only the routing map
`toolToServerMap` keeps a single owner). -/
theorem C1_counterexample_duplicate_in_snapshot :
    ((connectToServers
        [("alpha", { command := "node", args := ["a.js"] }),
         ("beta", { command := "node", args := ["b.js"] })]
        [("alpha", ConnOutcome.ok
            [{ name := "T", description := some "tool T", inputSchema := SchemaField.missing }]),
         ("beta", ConnOutcome.ok
            [{ name := "T", description := some "tool T", inputSchema := SchemaField.missing }])]
      ).state.allTools.map Tool.name = ["T", "T"])
    ∧ ¬ (((connectToServers
        [("alpha", { command := "node", args := ["a.js"] }),
         ("beta", { command := "node", args := ["b.js"] })]
        [("alpha", ConnOutcome.ok
            [{ name := "T", description := some "tool T", inputSchema := SchemaField.missing }]),
         ("beta", ConnOutcome.ok
            [{ name := "T", description := some "tool T", inputSchema := SchemaField.missing }])]
      ).state.allTools.map Tool.name).Nodup) := by
  constructor
  · rfl
  · decide

/-- C1 (amended): the capability snapshot `allTools` offered to the model
backend is exactly the concatenation, in settlement (registration) order, of
the converted catalogs of the successfully connected servers — one entry per
advertised capability per successful server.  A name advertised by two
servers therefore appears twice in the snapshot; it is only the routing map
`toolToServerMap`, not the snapshot, that keeps a single (most recent) owner
per name. -/
theorem C1_amended_snapshot_is_registration_order_concat
    (servers : List (String × ServerConfig)) (settle : List (String × ConnOutcome)) :
    (connectToServers servers settle).state.allTools = settle.flatMap okTools := by
  simp only [connectToServers]
  rw [settleAll_allTools, setupClients_allTools]
  simp [emptyState]

/-- C2, code bug: a capability invocation whose remote call completes with a
response the tool server marked as errored (`isError: true`, as every tool
server of this repository does, e.g. the `LIST_PROCESSES` handler) produces
a `tool_result` with `is_error = false`: `processQuery` reads `result.error`,
a field the MCP SDK result does not carry. -/
theorem C2_remote_reported_error_flag_dropped :
    dispatchToolCall
        { mcpClients := ["process-control"], transports := ["process-control"],
          allTools := [], toolToServerMap := [("LIST_PROCESSES", "process-control")] }
        (fun _ _ _ => CallOutcome.completed
            { content := ContentField.arr
                [{ type := "text", text := some "Error listing processes: spawn failed" }]
            , error := none
            , isErrorField := some true })
        ("toolu_01", "LIST_PROCESSES", some []) =
      { tool_use_id := "toolu_01"
      , content := "Error listing processes: spawn failed"
      , is_error := false } := by
  rfl

/-- C3, code bug: a startup with an unreadable, non-JSON, or schema-invalid
configuration file (with the backend credential present) aborts before any
query is accepted, but the process exits with code 0, not non-zero: the
error thrown by `loadConfig` is caught in `main` and the `finally` block
unconditionally calls `process.exit(0)`. -/
theorem C3_config_failure_exits_with_code_zero :
    runMain ConfigFile.invalidSchema true [] = { exitCode := 0, enteredChatLoop := false }
    ∧ runMain ConfigFile.unreadable true [] = { exitCode := 0, enteredChatLoop := false }
    ∧ runMain ConfigFile.invalidJson true [] = { exitCode := 0, enteredChatLoop := false } :=
  ⟨rfl, rfl, rfl⟩

/-- C4: a query whose phase-1 response requests N ≥ 1 capability
invocations produces exactly N Dispatcher invocations, one per request in
request order, followed by exactly one phase-4 backend call whose message
sequence ends with the list of all N results tagged with their originating
request ids, and that phase-4 call offers no capabilities (`tools` omitted). -/
theorem C4_tool_round_exact_dispatch_trace (st : ClientState) (query : String)
    (resp : ModelResponse) (finalOutcome : BackendOutcome) (cb : CallBehavior)
    (htc : respToolUses resp.content ≠ []) :
    (processQuery st query (BackendOutcome.ok resp) finalOutcome cb).2 =
      QEvent.backendCall initialModel
          [{ role := "user", content := MessageContent.ofString query }] (toolsOffered st)
        :: (respToolUses resp.content).map (fun tc => QEvent.dispatch tc.2.1 tc.1)
        ++ [QEvent.backendCall finalModel
             [{ role := "user", content := MessageContent.ofString query },
              { role := "assistant", content := MessageContent.ofBlocks resp.content },
              { role := "user", content := MessageContent.ofResults
                  ((respToolUses resp.content).map (dispatchToolCall st cb)) }] none]
    ∧ ((respToolUses resp.content).map (dispatchToolCall st cb)).map ToolResultPart.tool_use_id
        = (respToolUses resp.content).map (fun tc => tc.1) := by
  refine ⟨processQuery_toolRound st query resp finalOutcome cb htc, ?_⟩
  rw [List.map_map]
  exact List.map_congr_left (fun tc _ => dispatchToolCall_id st cb tc)

/-- C4 witness: a concrete query requesting `TIME` then `ECHO`. -/
theorem C4_tool_round_exact_dispatch_trace_witness :
    (respToolUses [ContentBlock.toolUse "id1" "TIME" (some []),
        ContentBlock.toolUse "id2" "ECHO" (some [("message", "hi")])] ≠ [])
    ∧ ((processQuery emptyState "q" (BackendOutcome.ok
          { content := [ContentBlock.toolUse "id1" "TIME" (some []),
              ContentBlock.toolUse "id2" "ECHO" (some [("message", "hi")])],
            stop_reason := none })
          (BackendOutcome.ok { content := [], stop_reason := none })
          (fun _ _ _ => CallOutcome.threw "refused")).2 =
        QEvent.backendCall initialModel
            [{ role := "user", content := MessageContent.ofString "q" }]
            (toolsOffered emptyState)
          :: (respToolUses [ContentBlock.toolUse "id1" "TIME" (some []),
                ContentBlock.toolUse "id2" "ECHO" (some [("message", "hi")])]).map
              (fun tc => QEvent.dispatch tc.2.1 tc.1)
          ++ [QEvent.backendCall finalModel
               [{ role := "user", content := MessageContent.ofString "q" },
                { role := "assistant", content := MessageContent.ofBlocks
                    [ContentBlock.toolUse "id1" "TIME" (some []),
                     ContentBlock.toolUse "id2" "ECHO" (some [("message", "hi")])] },
                { role := "user", content := MessageContent.ofResults
                    ((respToolUses [ContentBlock.toolUse "id1" "TIME" (some []),
                        ContentBlock.toolUse "id2" "ECHO" (some [("message", "hi")])]).map
                      (dispatchToolCall emptyState (fun _ _ _ => CallOutcome.threw "refused"))) }]
               none]
      ∧ ((respToolUses [ContentBlock.toolUse "id1" "TIME" (some []),
            ContentBlock.toolUse "id2" "ECHO" (some [("message", "hi")])]).map
          (dispatchToolCall emptyState (fun _ _ _ => CallOutcome.threw "refused"))).map
            ToolResultPart.tool_use_id
        = (respToolUses [ContentBlock.toolUse "id1" "TIME" (some []),
            ContentBlock.toolUse "id2" "ECHO" (some [("message", "hi")])]).map
            (fun tc => tc.1)) :=
  ⟨by decide,
   C4_tool_round_exact_dispatch_trace emptyState "q"
      { content := [ContentBlock.toolUse "id1" "TIME" (some []),
          ContentBlock.toolUse "id2" "ECHO" (some [("message", "hi")])],
        stop_reason := none }
      (BackendOutcome.ok { content := [], stop_reason := none })
      (fun _ _ _ => CallOutcome.threw "refused")
      (by decide)⟩

/-- C5: a Dispatcher invocation for a capability name absent from the
registry — or whose recorded owner has no live client — yields an
error-flagged `tool_result` whose message names the missing capability, and
the loop continues (the embedding is a total function: no exception
escapes). -/
theorem C5_unresolved_capability_error_result (st : ClientState) (cb : CallBehavior)
    (tc : String × String × Option ToolArgs)
    (h : mapGet st.toolToServerMap tc.2.1 = none ∨
         ∃ s, mapGet st.toolToServerMap tc.2.1 = some s ∧ s ∉ st.mcpClients) :
    dispatchToolCall st cb tc =
      { tool_use_id := tc.1
      , content := "Error: Tool \"" ++ tc.2.1 ++ "\" is not available or its server is disconnected."
      , is_error := true } := by
  have hcl : clientLookup st tc.2.1 = none := by
    rcases h with h | ⟨s, hs, hmem⟩
    · simp [clientLookup, h]
    · by_cases hse : s = ""
      · simp [clientLookup, hs, hse]
      · simp [clientLookup, hs, hse, hmem]
  simp [dispatchToolCall, hcl]

/-- C5 witness: dispatching an unknown capability on the fresh client state. -/
theorem C5_unresolved_capability_error_result_witness :
    (mapGet emptyState.toolToServerMap "NO_SUCH_TOOL" = none ∨
      ∃ s, mapGet emptyState.toolToServerMap "NO_SUCH_TOOL" = some s ∧
        s ∉ emptyState.mcpClients)
    ∧ dispatchToolCall emptyState (fun _ _ _ => CallOutcome.threw "never reached")
        ("id9", "NO_SUCH_TOOL", none) =
      { tool_use_id := "id9"
      , content := "Error: Tool \"" ++ "NO_SUCH_TOOL" ++ "\" is not available or its server is disconnected."
      , is_error := true } :=
  ⟨Or.inl rfl,
   C5_unresolved_capability_error_result emptyState
      (fun _ _ _ => CallOutcome.threw "never reached")
      ("id9", "NO_SUCH_TOOL", none) (Or.inl rfl)⟩

/-- C9: in a query with a tool round, the phase-1 backend call names
`claude-3-5-sonnet-20240620` and the phase-4 backend call names
`claude-3-opus-20240229` — the two phases are served by different model
identifiers. -/
theorem C9_phase_model_identifiers_differ (st : ClientState) (query : String)
    (resp : ModelResponse) (finalOutcome : BackendOutcome) (cb : CallBehavior)
    (htc : respToolUses resp.content ≠ []) :
    ((processQuery st query (BackendOutcome.ok resp) finalOutcome cb).2.filterMap eventModel
        = ["claude-3-5-sonnet-20240620", "claude-3-opus-20240229"])
    ∧ ("claude-3-5-sonnet-20240620" : String) ≠ "claude-3-opus-20240229" := by
  refine ⟨?_, by decide⟩
  rw [processQuery_toolRound st query resp finalOutcome cb htc]
  simp only [List.filterMap_cons, List.filterMap_append, List.filterMap_map]
  rw [show (eventModel ∘ fun tc : String × String × Option ToolArgs =>
        QEvent.dispatch tc.2.1 tc.1) = fun _ => none from rfl]
  simp [eventModel, initialModel, finalModel, List.filterMap_cons]

/-- C9 witness: a concrete query with one requested invocation. -/
theorem C9_phase_model_identifiers_differ_witness :
    (respToolUses [ContentBlock.toolUse "id1" "TIME" none] ≠ [])
    ∧ ((processQuery emptyState "q"
          (BackendOutcome.ok
            { content := [ContentBlock.toolUse "id1" "TIME" none]
            , stop_reason := none })
          (BackendOutcome.ok { content := [], stop_reason := none })
          (fun _ _ _ => CallOutcome.threw "refused")).2.filterMap eventModel
        = ["claude-3-5-sonnet-20240620", "claude-3-opus-20240229"])
    ∧ ("claude-3-5-sonnet-20240620" : String) ≠ "claude-3-opus-20240229" :=
  ⟨by decide,
   (C9_phase_model_identifiers_differ emptyState "q"
      { content := [ContentBlock.toolUse "id1" "TIME" none], stop_reason := none }
      (BackendOutcome.ok { content := [], stop_reason := none })
      (fun _ _ _ => CallOutcome.threw "refused") (by decide)).1,
   (C9_phase_model_identifiers_differ emptyState "q"
      { content := [ContentBlock.toolUse "id1" "TIME" none], stop_reason := none }
      (BackendOutcome.ok { content := [], stop_reason := none })
      (fun _ _ _ => CallOutcome.threw "refused") (by decide)).2⟩

/-- C6: for a pair of servers registering in order `nA` then `nB`, both
advertising a capability named `n` (names unique within each catalog, per
the IPC contract), the registry resolves `n` to the last registrant `nB`,
exactly one collision warning is emitted for `n`, and connection
establishment still succeeds (the collision is a warning side effect, not
an error). -/
theorem C6_collision_last_registration_wins (nA nB : String) (cA cB : ServerConfig)
    (tsA tsB : List ToolInfo) (n : String)
    (hAB : nA ≠ nB)
    (hA : n ∈ tsA.map ToolInfo.name) (hB : n ∈ tsB.map ToolInfo.name)
    (hndA : (tsA.map ToolInfo.name).Nodup) (hndB : (tsB.map ToolInfo.name).Nodup) :
    mapGet (connectToServers [(nA, cA), (nB, cB)]
        [(nA, ConnOutcome.ok tsA), (nB, ConnOutcome.ok tsB)]).state.toolToServerMap n
      = some nB
    ∧ warnCount (connectToServers [(nA, cA), (nB, cB)]
        [(nA, ConnOutcome.ok tsA), (nB, ConnOutcome.ok tsB)]).warnings n = 1
    ∧ (connectToServers [(nA, cA), (nB, cB)]
        [(nA, ConnOutcome.ok tsA), (nB, ConnOutcome.ok tsB)]).exited = false := by
  have hBA : ¬ nB = nA := fun h => hAB h.symm
  refine ⟨?_, ?_, ?_⟩
  · simp only [connectToServers, settleAll, settleEvent]
    rw [registerTools_get]
    simp [hB]
  · simp only [connectToServers, settleAll, settleEvent]
    have h1 : mapGet (registerTools
        (setupClients [(nA, cA), (nB, cB)] emptyState).toolToServerMap [] nA tsA).1 n
        = some nA := by
      rw [registerTools_get]
      simp [hA]
    rw [registerTools_warnCount _ _ _ _ _ hndB,
        registerTools_warnCount _ _ _ _ _ hndA, h1]
    simp [hA, hB, warnCount, setupClients_toolToServerMap, emptyState, mapGet]
  · simp only [connectToServers, settleAll, settleEvent]
    simp [setupClients, keySet, emptyState, hBA]

/-- C6 witness: servers "alpha" then "beta" both advertising "T". -/
theorem C6_collision_last_registration_wins_witness :
    (("alpha" : String) ≠ "beta"
      ∧ "T" ∈ [ToolInfo.mk "T" (some "dA") SchemaField.missing].map ToolInfo.name
      ∧ "T" ∈ [ToolInfo.mk "T" (some "dB") SchemaField.missing].map ToolInfo.name)
    ∧ mapGet (connectToServers
          [("alpha", ServerConfig.mk "node" []), ("beta", ServerConfig.mk "node" [])]
          [("alpha", ConnOutcome.ok [ToolInfo.mk "T" (some "dA") SchemaField.missing]),
           ("beta", ConnOutcome.ok [ToolInfo.mk "T" (some "dB") SchemaField.missing])]
        ).state.toolToServerMap "T" = some "beta"
    ∧ warnCount (connectToServers
          [("alpha", ServerConfig.mk "node" []), ("beta", ServerConfig.mk "node" [])]
          [("alpha", ConnOutcome.ok [ToolInfo.mk "T" (some "dA") SchemaField.missing]),
           ("beta", ConnOutcome.ok [ToolInfo.mk "T" (some "dB") SchemaField.missing])]
        ).warnings "T" = 1
    ∧ (connectToServers
          [("alpha", ServerConfig.mk "node" []), ("beta", ServerConfig.mk "node" [])]
          [("alpha", ConnOutcome.ok [ToolInfo.mk "T" (some "dA") SchemaField.missing]),
           ("beta", ConnOutcome.ok [ToolInfo.mk "T" (some "dB") SchemaField.missing])]
        ).exited = false := by
  refine ⟨⟨by decide, by decide, by decide⟩, ?hrest⟩
  exact C6_collision_last_registration_wins "alpha" "beta"
      (ServerConfig.mk "node" []) (ServerConfig.mk "node" [])
      [ToolInfo.mk "T" (some "dA") SchemaField.missing]
      [ToolInfo.mk "T" (some "dB") SchemaField.missing]
      "T" (by decide) (by decide) (by decide) (by decide) (by decide)

/-- C7: a query whose phase-1 response contains no capability-invocation
requests terminates after the single phase-1 backend call — no Dispatcher
invocation, no phase-4 call — and answers with the (newline-joined, trimmed)
text segments of the response, or the fixed placeholder when that text is
empty. -/
theorem C7_no_tool_calls_terminates_after_phase1 (st : ClientState) (query : String)
    (resp : ModelResponse) (finalOutcome : BackendOutcome) (cb : CallBehavior)
    (h : respToolUses resp.content = []) :
    processQuery st query (BackendOutcome.ok resp) finalOutcome cb =
      ((if (if (respTexts resp.content).length > 0
            then String.intercalate "\n" (respTexts resp.content) ++ "\n"
            else "").trim = ""
        then noTextPlaceholder
        else (if (respTexts resp.content).length > 0
              then String.intercalate "\n" (respTexts resp.content) ++ "\n"
              else "").trim),
       [QEvent.backendCall initialModel
          [{ role := "user", content := MessageContent.ofString query }] (toolsOffered st)]) := by
  have hne : (respToolUses resp.content).isEmpty = true := by simp [h]
  simp [processQuery, hne]

/-- C7 witness: a concrete text-only response. -/
theorem C7_no_tool_calls_terminates_after_phase1_witness :
    (respToolUses [ContentBlock.text "hello"] = [])
    ∧ processQuery emptyState "q"
        (BackendOutcome.ok { content := [ContentBlock.text "hello"], stop_reason := none })
        (BackendOutcome.threw "unused") (fun _ _ _ => CallOutcome.threw "unused") =
      ((if (if (respTexts [ContentBlock.text "hello"]).length > 0
            then String.intercalate "\n" (respTexts [ContentBlock.text "hello"]) ++ "\n"
            else "").trim = ""
        then noTextPlaceholder
        else (if (respTexts [ContentBlock.text "hello"]).length > 0
              then String.intercalate "\n" (respTexts [ContentBlock.text "hello"]) ++ "\n"
              else "").trim),
       [QEvent.backendCall initialModel
          [{ role := "user", content := MessageContent.ofString "q" }]
          (toolsOffered emptyState)]) :=
  ⟨rfl,
   C7_no_tool_calls_terminates_after_phase1 emptyState "q"
      { content := [ContentBlock.text "hello"], stop_reason := none }
      (BackendOutcome.threw "unused") (fun _ _ _ => CallOutcome.threw "unused") rfl⟩

/-- C8: with a settlement in which server `sA` succeeds and server `sB`
fails (each configured server settling exactly once), establishment
completes with `sB` removed from the usable client set, `sA` still usable,
the registry owned only by successfully settled servers, and no fatal exit;
and in any run where every attempt fails, `connectToServers` reaches
`process.exit(1)` before the session loop. -/
theorem C8_partial_failure_degraded_session (servers : List (String × ServerConfig))
    (settle : List (String × ConnOutcome))
    (sA : String) (tsA : List ToolInfo) (sB : String)
    (servers2 : List (String × ServerConfig)) (settle2 : List (String × ConnOutcome))
    (hnd : (settle.map Prod.fst).Nodup)
    (hsub : ∀ s ∈ settle.map Prod.fst, s ∈ servers.map Prod.fst)
    (hA : (sA, ConnOutcome.ok tsA) ∈ settle)
    (hB : (sB, ConnOutcome.fail) ∈ settle)
    (hall : ∀ e ∈ settle2, e.2 = ConnOutcome.fail)
    (hcov : ∀ s ∈ servers2.map Prod.fst, s ∈ settle2.map Prod.fst) :
    sB ∉ (connectToServers servers settle).state.mcpClients
    ∧ sA ∈ (connectToServers servers settle).state.mcpClients
    ∧ (∀ p ∈ (connectToServers servers settle).state.toolToServerMap, p.2 ∈ okNames settle)
    ∧ (connectToServers servers settle).exited = false
    ∧ (connectToServers servers2 settle2).exited = true := by
  have hAin : sA ∈ (connectToServers servers settle).state.mcpClients := by
    simp only [connectToServers]
    refine (settleAll_clients_mem settle _ [] sA).mpr ⟨?_, ?_⟩
    · exact (mem_setupClients servers emptyState sA).mpr
        (Or.inr (hsub sA (List.mem_map.mpr ⟨(sA, ConnOutcome.ok tsA), hA, rfl⟩)))
    · intro hf
      exact okNames_fail_absurd settle hnd sA
        ((mem_okNames settle sA).mpr ⟨tsA, hA⟩) hf
  refine ⟨?_, hAin, ?_, ?_, ?_⟩
  · intro hmem
    simp only [connectToServers] at hmem
    obtain ⟨_, hnf⟩ := (settleAll_clients_mem settle _ [] sB).mp hmem
    exact hnf ((mem_failNames settle sB).mpr hB)
  · intro p hp
    simp only [connectToServers] at hp
    rcases settleAll_owner settle _ [] p hp with h | h
    · rw [setupClients_toolToServerMap] at h
      simp [emptyState] at h
    · exact h
  · simp only [connectToServers] at hAin ⊢
    cases hcl : (settleAll (setupClients servers emptyState) [] settle).1.mcpClients with
    | nil => rw [hcl] at hAin; exact absurd hAin (List.not_mem_nil sA)
    | cons a l => simp [hcl]
  · have hempty : ∀ c, c ∉ (settleAll (setupClients servers2 emptyState) [] settle2).1.mcpClients := by
      intro c hc
      obtain ⟨hin, hnf⟩ := (settleAll_clients_mem settle2 _ [] c).mp hc
      have hcs : c ∈ servers2.map Prod.fst :=
        ((mem_setupClients servers2 emptyState c).mp hin).resolve_left (by simp [emptyState])
      obtain ⟨e, he, hfe⟩ := List.mem_map.mp (hcov c hcs)
      obtain ⟨a, o⟩ := e
      have ho : o = ConnOutcome.fail := hall (a, o) he
      subst ho
      have hac : a = c := hfe
      subst hac
      exact hnf ((mem_failNames settle2 a).mpr he)
    simp only [connectToServers]
    cases hcl : (settleAll (setupClients servers2 emptyState) [] settle2).1.mcpClients with
    | nil => simp [hcl]
    | cons a l => exact absurd (hcl ▸ List.mem_cons_self a l) (hempty a)

/-- C8 witness: servers "a" (succeeds, one tool) and "b" (fails); a second
configuration "x" whose only attempt fails. -/
theorem C8_partial_failure_degraded_session_witness :
    ((([("a", ConnOutcome.ok [ToolInfo.mk "T" none SchemaField.missing]),
        ("b", ConnOutcome.fail)] : List (String × ConnOutcome)).map Prod.fst).Nodup
      ∧ (∀ s ∈ ([("a", ConnOutcome.ok [ToolInfo.mk "T" none SchemaField.missing]),
            ("b", ConnOutcome.fail)] : List (String × ConnOutcome)).map Prod.fst,
          s ∈ ([("a", ServerConfig.mk "node" []), ("b", ServerConfig.mk "node" [])]
            : List (String × ServerConfig)).map Prod.fst)
      ∧ ("a", ConnOutcome.ok [ToolInfo.mk "T" none SchemaField.missing])
          ∈ ([("a", ConnOutcome.ok [ToolInfo.mk "T" none SchemaField.missing]),
              ("b", ConnOutcome.fail)] : List (String × ConnOutcome))
      ∧ ("b", ConnOutcome.fail)
          ∈ ([("a", ConnOutcome.ok [ToolInfo.mk "T" none SchemaField.missing]),
              ("b", ConnOutcome.fail)] : List (String × ConnOutcome))
      ∧ (∀ e ∈ ([("x", ConnOutcome.fail)] : List (String × ConnOutcome)),
          e.2 = ConnOutcome.fail)
      ∧ (∀ s ∈ ([("x", ServerConfig.mk "node" [])] : List (String × ServerConfig)).map Prod.fst,
          s ∈ ([("x", ConnOutcome.fail)] : List (String × ConnOutcome)).map Prod.fst))
    ∧ ("b" ∉ (connectToServers
          [("a", ServerConfig.mk "node" []), ("b", ServerConfig.mk "node" [])]
          [("a", ConnOutcome.ok [ToolInfo.mk "T" none SchemaField.missing]),
           ("b", ConnOutcome.fail)]).state.mcpClients
      ∧ "a" ∈ (connectToServers
          [("a", ServerConfig.mk "node" []), ("b", ServerConfig.mk "node" [])]
          [("a", ConnOutcome.ok [ToolInfo.mk "T" none SchemaField.missing]),
           ("b", ConnOutcome.fail)]).state.mcpClients
      ∧ (∀ p ∈ (connectToServers
            [("a", ServerConfig.mk "node" []), ("b", ServerConfig.mk "node" [])]
            [("a", ConnOutcome.ok [ToolInfo.mk "T" none SchemaField.missing]),
             ("b", ConnOutcome.fail)]).state.toolToServerMap,
          p.2 ∈ okNames [("a", ConnOutcome.ok [ToolInfo.mk "T" none SchemaField.missing]),
            ("b", ConnOutcome.fail)])
      ∧ (connectToServers
          [("a", ServerConfig.mk "node" []), ("b", ServerConfig.mk "node" [])]
          [("a", ConnOutcome.ok [ToolInfo.mk "T" none SchemaField.missing]),
           ("b", ConnOutcome.fail)]).exited = false
      ∧ (connectToServers [("x", ServerConfig.mk "node" [])]
          [("x", ConnOutcome.fail)]).exited = true) :=
  ⟨⟨by decide, by decide, by decide, by decide, by decide, by decide⟩,
   C8_partial_failure_degraded_session
      [("a", ServerConfig.mk "node" []), ("b", ServerConfig.mk "node" [])]
      [("a", ConnOutcome.ok [ToolInfo.mk "T" none SchemaField.missing]),
       ("b", ConnOutcome.fail)]
      "a" [ToolInfo.mk "T" none SchemaField.missing] "b"
      [("x", ServerConfig.mk "node" [])] [("x", ConnOutcome.fail)]
      (by decide) (by decide) (by decide) (by decide) (by decide) (by decide)⟩

/-- C10: after establishment settles (each configured server settling
exactly once), every server recorded as the owner of a capability in
`toolToServerMap` is still a key of the `mcpClients` map: capabilities are
registered only by attempts that succeeded, and only failed attempts are
deleted from the client map. -/
theorem C10_registry_owner_has_live_client (servers : List (String × ServerConfig))
    (settle : List (String × ConnOutcome))
    (hnd : (settle.map Prod.fst).Nodup)
    (hsub : ∀ s ∈ settle.map Prod.fst, s ∈ servers.map Prod.fst) :
    ∀ p ∈ (connectToServers servers settle).state.toolToServerMap,
      p.2 ∈ (connectToServers servers settle).state.mcpClients := by
  intro p hp
  simp only [connectToServers] at hp ⊢
  rcases settleAll_owner settle _ [] p hp with h | h
  · rw [setupClients_toolToServerMap] at h
    simp [emptyState] at h
  · refine (settleAll_clients_mem settle _ [] p.2).mpr ⟨?_, ?_⟩
    · exact (mem_setupClients servers emptyState p.2).mpr
        (Or.inr (hsub p.2 (okNames_subset settle p.2 h)))
    · intro hf
      exact okNames_fail_absurd settle hnd p.2 h hf

/-- C10 witness: two servers, one succeeding with a tool, one failing. -/
theorem C10_registry_owner_has_live_client_witness :
    ((([("a", ConnOutcome.ok [ToolInfo.mk "T" none SchemaField.missing]),
        ("b", ConnOutcome.fail)] : List (String × ConnOutcome)).map Prod.fst).Nodup
      ∧ (∀ s ∈ ([("a", ConnOutcome.ok [ToolInfo.mk "T" none SchemaField.missing]),
            ("b", ConnOutcome.fail)] : List (String × ConnOutcome)).map Prod.fst,
          s ∈ ([("a", ServerConfig.mk "node" []), ("b", ServerConfig.mk "node" [])]
            : List (String × ServerConfig)).map Prod.fst))
    ∧ (∀ p ∈ (connectToServers
          [("a", ServerConfig.mk "node" []), ("b", ServerConfig.mk "node" [])]
          [("a", ConnOutcome.ok [ToolInfo.mk "T" none SchemaField.missing]),
           ("b", ConnOutcome.fail)]).state.toolToServerMap,
        p.2 ∈ (connectToServers
          [("a", ServerConfig.mk "node" []), ("b", ServerConfig.mk "node" [])]
          [("a", ConnOutcome.ok [ToolInfo.mk "T" none SchemaField.missing]),
           ("b", ConnOutcome.fail)]).state.mcpClients) :=
  ⟨⟨by decide, by decide⟩,
   C10_registry_owner_has_live_client
      [("a", ServerConfig.mk "node" []), ("b", ServerConfig.mk "node" [])]
      [("a", ConnOutcome.ok [ToolInfo.mk "T" none SchemaField.missing]),
       ("b", ConnOutcome.fail)]
      (by decide) (by decide)⟩
